import Mathlib

/-!
Verification of the TwoBody radial-velocity orbit code (`twobody/orbit.py`)
against its specification.  The facade `KeplerOrbit` is embedded from the
source file; the collaborators it imports (`twobody.core.rv_from_elements`,
`twobody.elements`, `twobody.transforms.get_t0`, `a1_sini`, `mf`) are not part
of the provided sources and are modelled from the specification, as indicated
on each definition.  Floating-point numerics are modelled over `ℝ`.
-/

open scoped Classical

noncomputable section

namespace TwoBody

/-- Error kinds raised at the boundary (spec §7): configuration errors at
construction time, and the `TypeError` raised by `KeplerOrbit.__init__`. -/
inductive PyError where
  | configurationError : PyError
  | typeError : PyError
deriving DecidableEq

/-- Modelled from the spec: the Newton-Raphson update of the missing
`twobody.core` Kepler solver,
`E_{n+1} = E_n − (E_n − ecc·sin(E_n) − M) / (1 − ecc·cos(E_n))`. -/
def keplerStep (ecc M E : ℝ) : ℝ :=
  E - (E - ecc * Real.sin E - M) / (1 - ecc * Real.cos E)

/-- Modelled from the spec: the solver loop iterates the Newton step until
`|E_{n+1} − E_n| < tol`, with a bounded iteration count (the fuel); if the
cap is reached without convergence the result is reported as a failure
(`none`), one of the two failure policies the spec allows. -/
def keplerSolveAux (ecc M tol : ℝ) : ℕ → ℝ → Option ℝ
  | 0, _ => none
  | n + 1, E =>
    if |keplerStep ecc M E - E| < tol then some (keplerStep ecc M E)
    else keplerSolveAux ecc M tol n (keplerStep ecc M E)

/-- Modelled from the spec: the missing `twobody.core` solver for Kepler's
equation `M = E − ecc·sin E`, seeded with `E₀ = M` and capped at 100
iterations. -/
def keplerSolve (ecc M tol : ℝ) : Option ℝ :=
  keplerSolveAux ecc M tol 100 M

/-- Modelled from the spec: mean anomaly advancing linearly with time,
`mean_anomaly(t, P, phi0) = 2π·t/P − phi0`. -/
def meanAnomaly (t P phi0 : ℝ) : ℝ :=
  2 * Real.pi * t / P - phi0

/-- The complex number `√(1−ecc)·cos(E/2) + i·√(1+ecc)·sin(E/2)` whose
argument is half the true anomaly. -/
def nuZ (E ecc : ℝ) : ℂ :=
  ⟨Real.sqrt (1 - ecc) * Real.cos (E / 2), Real.sqrt (1 + ecc) * Real.sin (E / 2)⟩

/-- Modelled from the spec: the missing `twobody.core` conversion from
eccentric to true anomaly by the half-angle formula
`ν = 2·atan2(√(1+ecc)·sin(E/2), √(1−ecc)·cos(E/2))`, with
`atan2(y, x) = arg(x + i·y)`. -/
def trueAnomaly (E ecc : ℝ) : ℝ :=
  2 * Complex.arg (nuZ E ecc)

/-- Modelled from the spec: the missing `twobody.core.rv_from_elements`,
evaluated at a single time.  Mean anomaly, Kepler solve, true anomaly, then
the RV formula `v = K·(cos(ν + ω) + ecc·cos ω)`.  Solver failure propagates. -/
def rvFromElements (P K ecc omega phi0 anomaly_tol t : ℝ) : Option ℝ :=
  (keplerSolve ecc (meanAnomaly t P phi0) anomaly_tol).map
    (fun E => K * (Real.cos (trueAnomaly E ecc + omega) + ecc * Real.cos omega))

/-- Elementwise evaluation over a time array; fails when any element fails
(the spec's solver loop only terminates once all elements converge). -/
def optMap (f : ℝ → Option ℝ) : List ℝ → Option (List ℝ)
  | [] => some []
  | t :: ts =>
    match f t, optMap f ts with
    | some v, some vs => some (v :: vs)
    | _, _ => none

/-- Modelled from the spec: the immutable elements value object consumed by
the facade (the `twobody.elements` module is not among the provided sources).
All fields are stored in the internal unit system: `P` in days, `K` and the
trend values in m/s, angles in radians. -/
structure OrbitalElements where
  P : ℝ
  K : ℝ
  ecc : ℝ
  omega : ℝ
  phi0 : ℝ
  anomaly_tol : ℝ
  trend : Option (ℝ → ℝ)

/-- The keyword arguments forwarded by `KeplerOrbit.__init__` to the elements
class initializer. -/
structure ElementKwargs where
  P : ℝ
  K : ℝ
  ecc : ℝ
  omega : ℝ
  phi0 : ℝ
  anomaly_tol : ℝ
  trend : Option (ℝ → ℝ)

/-- Modelled from the spec: the `KeplerElements` initializer validates its
parameters and raises a `ConfigurationError` for an eccentricity outside
`[0, 1)`, a non-positive period, or a negative semi-amplitude (spec §7). -/
def mkKeplerElements (kw : ElementKwargs) : Except PyError OrbitalElements :=
  if kw.P ≤ 0 ∨ kw.K < 0 ∨ kw.ecc < 0 ∨ 1 ≤ kw.ecc then
    Except.error PyError.configurationError
  else
    Except.ok ⟨kw.P, kw.K, kw.ecc, kw.omega, kw.phi0, kw.anomaly_tol, kw.trend⟩

/-- Modelled from the spec: the set of element classes available in the
`twobody.elements` module; the spec names the `"kepler"` variant. -/
def elementsClassExists (name : String) : Prop :=
  name = "KeplerElements"

/-- The named-variant dispatch performed by `KeplerOrbit.__init__`: the class
named `elements_type.capitalize() + "Elements"` is looked up and called with
the keyword arguments; an unknown kind is a configuration error (spec §6). -/
def dispatchElements (elements_type : String) (kw : ElementKwargs) :
    Except PyError OrbitalElements :=
  if elementsClassExists (elements_type.capitalize ++ "Elements") then
    mkKeplerElements kw
  else
    Except.error PyError.configurationError

/-- The runtime value passed as the `elements` argument: either an instance of
an `OrbitalElements` subclass or some other Python object. -/
inductive ElementsArg where
  | orbital (e : OrbitalElements) : ElementsArg
  | other : ElementsArg

/-- The orbit facade: wraps one `OrbitalElements` instance. -/
structure KeplerOrbit where
  elements : OrbitalElements

/-- `KeplerOrbit.__init__`: with `elements=None` the named variant is
constructed from the keyword arguments; a non-`None` argument that is not an
`OrbitalElements` instance raises a `TypeError`. -/
def KeplerOrbit.init (elements : Option ElementsArg) (elements_type : String)
    (kw : ElementKwargs) : Except PyError KeplerOrbit :=
  match elements with
  | none => (dispatchElements elements_type kw).map (fun e => ⟨e⟩)
  | some (ElementsArg.orbital e) => Except.ok ⟨e⟩
  | some ElementsArg.other => Except.error PyError.typeError

/-- Attribute delegation from the orbit to its elements. -/
def KeplerOrbit.P (o : KeplerOrbit) : ℝ := o.elements.P

/-- Attribute delegation from the orbit to its elements. -/
def KeplerOrbit.K (o : KeplerOrbit) : ℝ := o.elements.K

/-- Attribute delegation from the orbit to its elements. -/
def KeplerOrbit.ecc (o : KeplerOrbit) : ℝ := o.elements.ecc

/-- Attribute delegation from the orbit to its elements. -/
def KeplerOrbit.omega (o : KeplerOrbit) : ℝ := o.elements.omega

/-- Attribute delegation from the orbit to its elements. -/
def KeplerOrbit.phi0 (o : KeplerOrbit) : ℝ := o.elements.phi0

/-- Attribute delegation from the orbit to its elements. -/
def KeplerOrbit.anomaly_tol (o : KeplerOrbit) : ℝ := o.elements.anomaly_tol

/-- Attribute delegation from the orbit to its elements. -/
def KeplerOrbit.trend (o : KeplerOrbit) : Option (ℝ → ℝ) := o.elements.trend

namespace transforms

/-- Modelled from the spec: `twobody.transforms.get_t0` un-mods the pericenter
phase into the absolute pericenter time closest to the reference epoch by
`Δt = phi0/(2π)·P` and `t0 = Δt + round((ref_epoch − Δt)/P)·P`. -/
def get_t0 (phi0 P ref_mjd : ℝ) : ℝ :=
  phi0 / (2 * Real.pi) * P + (round ((ref_mjd - phi0 / (2 * Real.pi) * P) / P) : ℤ) * P

/-- Modelled from the spec: the internal gravitational constant of the fixed
unit system used by `twobody.transforms`. -/
def Gconst : ℝ := 6.6743e-11

/-- Modelled from the spec: `twobody.transforms.a1_sini`, the projected
semi-major axis `K·P·√(1−ecc²)/(2π)`, rejecting a negative `P` or `K` and an
eccentricity outside `[0, 1)`. -/
def a1_sini (P K ecc : ℝ) : Except PyError ℝ :=
  if P < 0 ∨ K < 0 ∨ ecc < 0 ∨ 1 ≤ ecc then
    Except.error PyError.configurationError
  else
    Except.ok (K * P * Real.sqrt (1 - ecc ^ 2) / (2 * Real.pi))

/-- Modelled from the spec: `twobody.transforms.mf`, the mass function
`P·K³·(1−ecc²)^(3/2)/(2π·G)`, with the same input validation. -/
def mf (P K ecc : ℝ) : Except PyError ℝ :=
  if P < 0 ∨ K < 0 ∨ ecc < 0 ∨ 1 ≤ ecc then
    Except.error PyError.configurationError
  else
    Except.ok (P * K ^ 3 * Real.sqrt (1 - ecc ^ 2) ^ 3 / (2 * Real.pi * Gconst))

end transforms

/-- `KeplerOrbit.t0`: delegates to `get_t0` with the orbit's own `phi0` and
`P` (source lines 46–62). -/
def KeplerOrbit.t0 (o : KeplerOrbit) (ref_mjd : ℝ) : ℝ :=
  transforms.get_t0 o.phi0 o.P ref_mjd

/-- `KeplerOrbit._generate_rv_curve` (source lines 64–82): evaluate
`rv_from_elements` at the raw times, then add the trend, evaluated at the
same raw times, elementwise when one is present. -/
def KeplerOrbit.generate_rv_curve_raw (o : KeplerOrbit) (ts : List ℝ) :
    Option (List ℝ) :=
  (optMap (rvFromElements o.P o.K o.ecc o.omega o.phi0 o.anomaly_tol) ts).map
    (fun rv =>
      match o.trend with
      | none => rv
      | some f => List.zipWith (· + ·) rv (ts.map f))

/-- `KeplerOrbit.generate_rv_curve` (source lines 84–98): the raw m/s values
re-tagged and converted to km/s. -/
def KeplerOrbit.generate_rv_curve (o : KeplerOrbit) (ts : List ℝ) :
    Option (List ℝ) :=
  (o.generate_rv_curve_raw ts).map (List.map (fun v => v / 1000))

/-- `KeplerOrbit.__call__` (source lines 100–101): delegates to
`generate_rv_curve`. -/
def KeplerOrbit.call (o : KeplerOrbit) (ts : List ℝ) : Option (List ℝ) :=
  o.generate_rv_curve ts

/-- The `a1_sini` computed attribute (source lines 160–162). -/
def KeplerOrbit.a1_sini (o : KeplerOrbit) : Except PyError ℝ :=
  transforms.a1_sini o.P o.K o.ecc

/-- The `mf` computed attribute (source lines 164–166). -/
def KeplerOrbit.mf (o : KeplerOrbit) : Except PyError ℝ :=
  transforms.mf o.P o.K o.ecc

/-- The orbit of the spec's end-to-end scenario: `P = 10` days, `K = 5` km/s
(5000 m/s internally), `ecc = 0`, `omega = 0`, `phi0 = 0`, no trend. -/
def orbitScenario : KeplerOrbit :=
  ⟨⟨10, 5000, 0, 0, 0, 1e-10, none⟩⟩

/-- An orbit with a linear trend, for exercising the trend branch. -/
def orbitWithTrend : KeplerOrbit :=
  ⟨⟨10, 5000, 0, 0, 0, 1e-10, some (fun t => t)⟩⟩

/-- The same orbit with the trend removed. -/
def KeplerOrbit.withoutTrend (o : KeplerOrbit) : KeplerOrbit :=
  ⟨⟨o.elements.P, o.elements.K, o.elements.ecc, o.elements.omega,
    o.elements.phi0, o.elements.anomaly_tol, none⟩⟩

/-! ### Solver lemmas -/

theorem keplerSolveAux_succ (ecc M tol : ℝ) (n : ℕ) (E : ℝ) :
    keplerSolveAux ecc M tol (n + 1) E =
      if |keplerStep ecc M E - E| < tol then some (keplerStep ecc M E)
      else keplerSolveAux ecc M tol n (keplerStep ecc M E) := rfl

theorem cos_lipschitz (a b : ℝ) : |Real.cos a - Real.cos b| ≤ |a - b| := by
  rw [Real.cos_sub_cos]
  have h1 : |Real.sin ((a - b) / 2)| ≤ |(a - b) / 2| := Real.abs_sin_le_abs
  have h2 : |Real.sin ((a + b) / 2)| ≤ 1 := Real.abs_sin_le_one _
  calc |-2 * Real.sin ((a + b) / 2) * Real.sin ((a - b) / 2)|
      = 2 * |Real.sin ((a + b) / 2)| * |Real.sin ((a - b) / 2)| := by
        rw [abs_mul, abs_mul]; norm_num
    _ ≤ 2 * 1 * |(a - b) / 2| := by gcongr
    _ = |a - b| := by rw [abs_div, abs_two]; ring

/-- One Newton step: if `g(E) + g'(E)·(E' − E) = 0` for
`g(u) = u − ecc·sin u − M`, then the residual at `E'` is at most
`ecc·(E' − E)²` (a mean-value estimate using that `g'` is `ecc`-Lipschitz). -/
theorem newton_residual_bound (ecc M E E' : ℝ) (hecc : 0 ≤ ecc)
    (hstep : (E - ecc * Real.sin E - M) + (1 - ecc * Real.cos E) * (E' - E) = 0) :
    |E' - ecc * Real.sin E' - M| ≤ ecc * (E' - E) ^ 2 := by
  set q : ℝ → ℝ := fun u =>
    (u - ecc * Real.sin u - M) -
      ((E - ecc * Real.sin E - M) + (1 - ecc * Real.cos E) * (u - E)) with hq
  have hderiv : ∀ u : ℝ, HasDerivAt q (ecc * (Real.cos E - Real.cos u)) u := by
    intro u
    have h1 : HasDerivAt (fun v : ℝ => v - ecc * Real.sin v - M)
        (1 - ecc * Real.cos u) u :=
      ((hasDerivAt_id u).sub ((Real.hasDerivAt_sin u).const_mul ecc)).sub_const M
    have h2 : HasDerivAt (fun v : ℝ =>
        (E - ecc * Real.sin E - M) + (1 - ecc * Real.cos E) * (v - E))
        (1 - ecc * Real.cos E) u := by
      have h3 := (((hasDerivAt_id u).sub_const E).const_mul
        (1 - ecc * Real.cos E)).const_add (E - ecc * Real.sin E - M)
      simpa using h3
    have h4 := h1.sub h2
    convert h4 using 1
    ring
  have hqE : q E = 0 := by simp only [hq]; ring
  have hqE' : q E' = E' - ecc * Real.sin E' - M := by simp only [hq]; linarith
  rcases lt_trichotomy E E' with hlt | heq | hgt
  · have hcont : ContinuousOn q (Set.Icc E E') := fun u _ =>
      (hderiv u).continuousAt.continuousWithinAt
    obtain ⟨c, hcmem, hcs⟩ := exists_hasDerivAt_eq_slope q
      (fun u => ecc * (Real.cos E - Real.cos u)) hlt hcont (fun u _ => hderiv u)
    have hne : E' - E ≠ 0 := sub_ne_zero.mpr hlt.ne'
    have hval : q E' = ecc * (Real.cos E - Real.cos c) * (E' - E) := by
      rw [hqE] at hcs
      field_simp at hcs
      linarith
    have hcE : |E - c| ≤ |E' - E| := by
      rw [abs_sub_comm E c, abs_of_pos (sub_pos.mpr hcmem.1),
        abs_of_pos (sub_pos.mpr hlt)]
      linarith [hcmem.2]
    calc |E' - ecc * Real.sin E' - M| = |q E'| := by rw [hqE']
      _ = ecc * |Real.cos E - Real.cos c| * |E' - E| := by
          rw [hval, abs_mul, abs_mul, abs_of_nonneg hecc]
      _ ≤ ecc * |E - c| * |E' - E| :=
          mul_le_mul_of_nonneg_right
            (mul_le_mul_of_nonneg_left (cos_lipschitz E c) hecc) (abs_nonneg _)
      _ ≤ ecc * |E' - E| * |E' - E| :=
          mul_le_mul_of_nonneg_right
            (mul_le_mul_of_nonneg_left hcE hecc) (abs_nonneg _)
      _ = ecc * (E' - E) ^ 2 := by rw [← sq_abs]; ring
  · subst heq
    have : E - ecc * Real.sin E - M = 0 := by linarith [hstep]
    rw [this]
    simp
  · have hcont : ContinuousOn q (Set.Icc E' E) := fun u _ =>
      (hderiv u).continuousAt.continuousWithinAt
    obtain ⟨c, hcmem, hcs⟩ := exists_hasDerivAt_eq_slope q
      (fun u => ecc * (Real.cos E - Real.cos u)) hgt hcont (fun u _ => hderiv u)
    have hne : E - E' ≠ 0 := sub_ne_zero.mpr hgt.ne'
    have hval : q E' = -(ecc * (Real.cos E - Real.cos c)) * (E - E') := by
      rw [hqE] at hcs
      field_simp at hcs
      linarith
    have hcE : |E - c| ≤ |E' - E| := by
      rw [abs_of_pos (sub_pos.mpr hcmem.2), abs_sub_comm E' E,
        abs_of_pos (sub_pos.mpr hgt)]
      linarith [hcmem.1]
    calc |E' - ecc * Real.sin E' - M| = |q E'| := by rw [hqE']
      _ = ecc * |Real.cos E - Real.cos c| * |E - E'| := by
          rw [hval, abs_mul, abs_neg, abs_mul, abs_of_nonneg hecc]
      _ = ecc * |Real.cos E - Real.cos c| * |E' - E| := by rw [abs_sub_comm E' E]
      _ ≤ ecc * |E - c| * |E' - E| :=
          mul_le_mul_of_nonneg_right
            (mul_le_mul_of_nonneg_left (cos_lipschitz E c) hecc) (abs_nonneg _)
      _ ≤ ecc * |E' - E| * |E' - E| :=
          mul_le_mul_of_nonneg_right
            (mul_le_mul_of_nonneg_left hcE hecc) (abs_nonneg _)
      _ = ecc * (E' - E) ^ 2 := by rw [← sq_abs]; ring

theorem one_sub_ecc_cos_pos (ecc u : ℝ) (h0 : 0 ≤ ecc) (h1 : ecc < 1) :
    0 < 1 - ecc * Real.cos u := by
  nlinarith [Real.cos_le_one u, Real.neg_one_le_cos u]

/-- Whenever the solver loop returns a value via its convergence criterion,
the Kepler-equation residual at that value is at most `tol`
(for `ecc ∈ [0, 1)` and `tol ≤ 1`). -/
theorem keplerSolveAux_residual (ecc M tol : ℝ) (h0 : 0 ≤ ecc) (h1 : ecc < 1)
    (ht1 : tol ≤ 1) :
    ∀ (n : ℕ) (E₀ E : ℝ), keplerSolveAux ecc M tol n E₀ = some E →
      |E - ecc * Real.sin E - M| ≤ tol := by
  intro n
  induction n with
  | zero => intro E₀ E h; simp [keplerSolveAux] at h
  | succ n ih =>
    intro E₀ E h
    rw [keplerSolveAux_succ] at h
    by_cases hc : |keplerStep ecc M E₀ - E₀| < tol
    · rw [if_pos hc] at h
      have hE := Option.some.inj h
      subst hE
      have htol : 0 < tol := lt_of_le_of_lt (abs_nonneg _) hc
      have hden := one_sub_ecc_cos_pos ecc E₀ h0 h1
      have hstep : (E₀ - ecc * Real.sin E₀ - M) +
          (1 - ecc * Real.cos E₀) * (keplerStep ecc M E₀ - E₀) = 0 := by
        unfold keplerStep
        field_simp
        ring
      have hres := newton_residual_bound ecc M E₀ (keplerStep ecc M E₀) h0 hstep
      have h2 : (keplerStep ecc M E₀ - E₀) ^ 2 ≤ tol * tol := by
        nlinarith [abs_nonneg (keplerStep ecc M E₀ - E₀),
          sq_abs (keplerStep ecc M E₀ - E₀)]
      nlinarith [hres, h2, mul_nonneg h0 htol.le]
    · rw [if_neg hc] at h
      exact ih _ _ h

theorem keplerStep_self_ecc_zero (M : ℝ) : keplerStep 0 M M = M := by
  unfold keplerStep
  simp

theorem keplerSolve_ecc_zero (M tol : ℝ) (htol : 0 < tol) :
    keplerSolve 0 M tol = some M := by
  unfold keplerSolve
  have h100 : (100 : ℕ) = 99 + 1 := rfl
  rw [h100, keplerSolveAux_succ, keplerStep_self_ecc_zero]
  simp [htol]

theorem keplerStep_add_two_pi (ecc M E : ℝ) :
    keplerStep ecc (M + 2 * Real.pi) (E + 2 * Real.pi) =
      keplerStep ecc M E + 2 * Real.pi := by
  unfold keplerStep
  rw [Real.sin_add_two_pi, Real.cos_add_two_pi]
  ring

theorem keplerSolveAux_add_two_pi (ecc M tol : ℝ) :
    ∀ (n : ℕ) (E : ℝ),
      keplerSolveAux ecc (M + 2 * Real.pi) tol n (E + 2 * Real.pi) =
        (keplerSolveAux ecc M tol n E).map (fun E => E + 2 * Real.pi) := by
  intro n
  induction n with
  | zero => intro E; rfl
  | succ n ih =>
    intro E
    rw [keplerSolveAux_succ, keplerSolveAux_succ, keplerStep_add_two_pi]
    have harg : keplerStep ecc M E + 2 * Real.pi - (E + 2 * Real.pi) =
        keplerStep ecc M E - E := by ring
    rw [harg]
    by_cases hc : |keplerStep ecc M E - E| < tol
    · rw [if_pos hc, if_pos hc]; rfl
    · rw [if_neg hc, if_neg hc]; exact ih _

theorem keplerSolve_add_two_pi (ecc M tol : ℝ) :
    keplerSolve ecc (M + 2 * Real.pi) tol =
      (keplerSolve ecc M tol).map (fun E => E + 2 * Real.pi) :=
  keplerSolveAux_add_two_pi ecc M tol 100 M

/-! ### True-anomaly lemmas -/

theorem nuZ_re (E ecc : ℝ) : (nuZ E ecc).re = Real.sqrt (1 - ecc) * Real.cos (E / 2) :=
  rfl

theorem nuZ_im (E ecc : ℝ) : (nuZ E ecc).im = Real.sqrt (1 + ecc) * Real.sin (E / 2) :=
  rfl

theorem normSq_nuZ (E ecc : ℝ) (h0 : 0 ≤ ecc) (h1 : ecc ≤ 1) :
    Complex.normSq (nuZ E ecc) = 1 - ecc * Real.cos E := by
  unfold nuZ
  rw [Complex.normSq_mk]
  have hs : Real.sqrt (1 - ecc) * Real.sqrt (1 - ecc) = 1 - ecc :=
    Real.mul_self_sqrt (by linarith)
  have hc : Real.sqrt (1 + ecc) * Real.sqrt (1 + ecc) = 1 + ecc :=
    Real.mul_self_sqrt (by linarith)
  have hcos := Real.cos_two_mul' (E / 2)
  rw [show 2 * (E / 2) = E by ring] at hcos
  have hpy := Real.sin_sq_add_cos_sq (E / 2)
  rw [hcos]
  linear_combination (Real.cos (E / 2)) ^ 2 * hs + (Real.sin (E / 2)) ^ 2 * hc +
    hpy

theorem nuZ_ne_zero (E ecc : ℝ) (h0 : 0 ≤ ecc) (h1 : ecc < 1) : nuZ E ecc ≠ 0 := by
  intro h
  have h2 := normSq_nuZ E ecc h0 h1.le
  rw [h, Complex.normSq_zero] at h2
  nlinarith [Real.cos_le_one E, mul_le_mul_of_nonneg_left (Real.cos_le_one E) h0]

theorem cos_trueAnomaly (E ecc : ℝ) :
    Real.cos (trueAnomaly E ecc) =
      1 - 2 * (nuZ E ecc).im ^ 2 / Complex.normSq (nuZ E ecc) := by
  unfold trueAnomaly
  rw [Real.cos_two_mul, Real.cos_sq', Complex.sin_arg, div_pow, Complex.sq_abs]
  ring

theorem sin_trueAnomaly (E ecc : ℝ) (h : nuZ E ecc ≠ 0) :
    Real.sin (trueAnomaly E ecc) =
      2 * (nuZ E ecc).re * (nuZ E ecc).im / Complex.normSq (nuZ E ecc) := by
  unfold trueAnomaly
  rw [Real.sin_two_mul, Complex.sin_arg, Complex.cos_arg h, ← Complex.sq_abs]
  have habs : Complex.abs (nuZ E ecc) ≠ 0 := Complex.abs.ne_zero h
  field_simp
  ring

theorem cos_trueAnomaly_ecc_zero (E : ℝ) :
    Real.cos (trueAnomaly E 0) = Real.cos E := by
  rw [cos_trueAnomaly, normSq_nuZ E 0 le_rfl zero_le_one, nuZ_im]
  have h2 := Real.cos_two_mul (E / 2)
  rw [show 2 * (E / 2) = E by ring] at h2
  have hpy := Real.sin_sq_add_cos_sq (E / 2)
  simp only [add_zero, zero_add, Real.sqrt_one, one_mul, zero_mul, sub_zero]
  rw [div_one]
  linarith

theorem sin_trueAnomaly_ecc_zero (E : ℝ) :
    Real.sin (trueAnomaly E 0) = Real.sin E := by
  rw [sin_trueAnomaly E 0 (nuZ_ne_zero E 0 le_rfl one_pos), nuZ_re, nuZ_im,
    normSq_nuZ E 0 le_rfl zero_le_one]
  have h2 := Real.sin_two_mul (E / 2)
  rw [show 2 * (E / 2) = E by ring] at h2
  simp only [add_zero, sub_zero, zero_add, Real.sqrt_one, one_mul, zero_mul]
  rw [div_one]
  linear_combination -h2

theorem nuZ_add_two_pi (E ecc : ℝ) : nuZ (E + 2 * Real.pi) ecc = -nuZ E ecc := by
  apply Complex.ext
  · rw [Complex.neg_re, nuZ_re, nuZ_re,
      show (E + 2 * Real.pi) / 2 = E / 2 + Real.pi by ring, Real.cos_add_pi]
    ring
  · rw [Complex.neg_im, nuZ_im, nuZ_im,
      show (E + 2 * Real.pi) / 2 = E / 2 + Real.pi by ring, Real.sin_add_pi]
    ring

theorem cos_trueAnomaly_add_two_pi (E ecc : ℝ) :
    Real.cos (trueAnomaly (E + 2 * Real.pi) ecc) = Real.cos (trueAnomaly E ecc) := by
  rw [cos_trueAnomaly, cos_trueAnomaly, nuZ_add_two_pi, Complex.normSq_neg,
    Complex.neg_im]
  ring_nf

theorem sin_trueAnomaly_add_two_pi (E ecc : ℝ) (h0 : 0 ≤ ecc) (h1 : ecc < 1) :
    Real.sin (trueAnomaly (E + 2 * Real.pi) ecc) = Real.sin (trueAnomaly E ecc) := by
  have hz := nuZ_ne_zero E ecc h0 h1
  have hz' : nuZ (E + 2 * Real.pi) ecc ≠ 0 := by
    rw [nuZ_add_two_pi]
    exact neg_ne_zero.mpr hz
  rw [sin_trueAnomaly _ _ hz', sin_trueAnomaly _ _ hz, nuZ_add_two_pi,
    Complex.normSq_neg, Complex.neg_re, Complex.neg_im]
  ring_nf

/-! ### RV-curve lemmas -/

theorem rvFromElements_ecc_zero (P K omega phi0 tol t : ℝ) (htol : 0 < tol) :
    rvFromElements P K 0 omega phi0 tol t =
      some (K * Real.cos (2 * Real.pi * t / P - phi0 + omega)) := by
  unfold rvFromElements
  rw [keplerSolve_ecc_zero _ _ htol]
  simp only [Option.map_some']
  congr 1
  have hM : meanAnomaly t P phi0 = 2 * Real.pi * t / P - phi0 := rfl
  rw [Real.cos_add, Real.cos_add, cos_trueAnomaly_ecc_zero,
    sin_trueAnomaly_ecc_zero, hM]
  ring

theorem rvFromElements_add_period (P K ecc omega phi0 tol t : ℝ) (hP : P ≠ 0)
    (h0 : 0 ≤ ecc) (h1 : ecc < 1) :
    rvFromElements P K ecc omega phi0 tol (t + P) =
      rvFromElements P K ecc omega phi0 tol t := by
  unfold rvFromElements
  have hM : meanAnomaly (t + P) P phi0 = meanAnomaly t P phi0 + 2 * Real.pi := by
    unfold meanAnomaly
    field_simp
    ring
  rw [hM, keplerSolve_add_two_pi]
  cases hE : keplerSolve ecc (meanAnomaly t P phi0) tol with
  | none => rfl
  | some E =>
    simp only [Option.map_some']
    have hval : Real.cos (trueAnomaly (E + 2 * Real.pi) ecc + omega) =
        Real.cos (trueAnomaly E ecc + omega) := by
      rw [Real.cos_add, Real.cos_add, cos_trueAnomaly_add_two_pi,
        sin_trueAnomaly_add_two_pi E ecc h0 h1]
    rw [hval]

theorem optMap_congr (f g : ℝ → Option ℝ) (ts : List ℝ)
    (h : ∀ t ∈ ts, f t = g t) : optMap f ts = optMap g ts := by
  induction ts with
  | nil => rfl
  | cons t ts ih =>
    simp only [optMap]
    rw [h t (List.mem_cons_self t ts), ih fun u hu => h u (List.mem_cons_of_mem t hu)]

theorem optMap_map (f : ℝ → Option ℝ) (g : ℝ → ℝ) (ts : List ℝ) :
    optMap f (ts.map g) = optMap (fun t => f (g t)) ts := by
  induction ts with
  | nil => rfl
  | cons t ts ih =>
    simp only [List.map_cons, optMap]
    rw [ih]

/-! ### Concrete inputs used by witnesses -/

/-- Keyword arguments of the end-to-end scenario. -/
def kwScenario : ElementKwargs := ⟨10, 5000, 0, 0, 0, 1e-10, none⟩

/-- Keyword arguments with the invalid eccentricity `1.2`. -/
def kwBadEcc : ElementKwargs := ⟨10, 5000, 12 / 10, 0, 0, 1e-10, none⟩

/-- Keyword arguments with the invalid period `-5`. -/
def kwBadP : ElementKwargs := ⟨-5, 5000, 0, 0, 0, 1e-10, none⟩

/-! ### Claim theorems -/

/-- C2: with zero eccentricity the RV evaluation is the pure sinusoid
`v(t) = K·cos(2π·t/P − phi0 + omega)` at every time, and the end-to-end
scenario (`P = 10` d, `K = 5` km/s, `ecc = omega = phi0 = 0`) evaluated at
`[0, 2.5, 5, 7.5]` days yields `[5, 0, -5, 0]` km/s. -/
theorem C2_rv_sinusoid :
    (∀ P K omega phi0 tol t : ℝ, 0 < tol →
        rvFromElements P K 0 omega phi0 tol t =
          some (K * Real.cos (2 * Real.pi * t / P - phi0 + omega))) ∧
    orbitScenario.generate_rv_curve [0, 2.5, 5, 7.5] = some [5, 0, -5, 0] := by
  constructor
  · exact fun P K omega phi0 tol t ht => rvFromElements_ecc_zero P K omega phi0 tol t ht
  · have h1 : rvFromElements 10 5000 0 0 0 (1e-10) 0 = some 5000 := by
      rw [rvFromElements_ecc_zero _ _ _ _ _ _ (by norm_num)]
      norm_num
    have h2 : rvFromElements 10 5000 0 0 0 (1e-10) 2.5 = some 0 := by
      rw [rvFromElements_ecc_zero _ _ _ _ _ _ (by norm_num)]
      rw [show 2 * Real.pi * 2.5 / 10 - 0 + 0 = Real.pi / 2 by ring,
        Real.cos_pi_div_two]
      norm_num
    have h3 : rvFromElements 10 5000 0 0 0 (1e-10) 5 = some (-5000) := by
      rw [rvFromElements_ecc_zero _ _ _ _ _ _ (by norm_num)]
      rw [show 2 * Real.pi * 5 / 10 - 0 + 0 = Real.pi by ring, Real.cos_pi]
      norm_num
    have h4 : rvFromElements 10 5000 0 0 0 (1e-10) 7.5 = some 0 := by
      rw [rvFromElements_ecc_zero _ _ _ _ _ _ (by norm_num)]
      rw [show 2 * Real.pi * 7.5 / 10 - 0 + 0 = Real.pi + Real.pi / 2 by ring,
        Real.cos_add]
      norm_num
    have hF : rvFromElements orbitScenario.P orbitScenario.K orbitScenario.ecc
        orbitScenario.omega orbitScenario.phi0 orbitScenario.anomaly_tol =
        rvFromElements 10 5000 0 0 0 (1e-10) := rfl
    have hT : orbitScenario.trend = none := rfl
    unfold KeplerOrbit.generate_rv_curve KeplerOrbit.generate_rv_curve_raw
    rw [hF, hT]
    simp only [optMap, h1, h2, h3, h4, Option.map_some', List.map]
    norm_num

/-- C2 witness: the sinusoid clause instantiated at a concrete input. -/
theorem C2_witness :
    rvFromElements 10 5000 0 0 0 1 0 =
      some (5000 * Real.cos (2 * Real.pi * 0 / 10 - 0 + 0)) :=
  C2_rv_sinusoid.1 10 5000 0 0 1 0 (by norm_num)

/-- C3: with no trend present, the RV evaluation is periodic in time with
period `P`: shifting every input time by `P` leaves the output unchanged. -/
theorem C3_rv_periodic (o : KeplerOrbit) (ts : List ℝ) (htrend : o.trend = none)
    (hP : 0 < o.P) (h0 : 0 ≤ o.ecc) (h1 : o.ecc < 1) :
    o.generate_rv_curve (ts.map (fun t => t + o.P)) = o.generate_rv_curve ts := by
  unfold KeplerOrbit.generate_rv_curve KeplerOrbit.generate_rv_curve_raw
  rw [htrend, optMap_map,
    optMap_congr (fun t => rvFromElements o.P o.K o.ecc o.omega o.phi0 o.anomaly_tol (t + o.P))
      (rvFromElements o.P o.K o.ecc o.omega o.phi0 o.anomaly_tol) ts
      (fun t _ => rvFromElements_add_period o.P o.K o.ecc o.omega o.phi0
        o.anomaly_tol t hP.ne' h0 h1)]

/-- C3 witness: the periodicity theorem applied to the scenario orbit. -/
theorem C3_witness :
    orbitScenario.generate_rv_curve ([0].map (fun t => t + orbitScenario.P)) =
      orbitScenario.generate_rv_curve [0] := by
  have h10 : orbitScenario.P = 10 := rfl
  have he : orbitScenario.ecc = 0 := rfl
  exact C3_rv_periodic orbitScenario [0] rfl (by rw [h10]; norm_num)
    (by rw [he]) (by rw [he]; norm_num)

/-- C4: `KeplerOrbit.t0` returns the pericenter time computed from the
orbit's own `phi0` and `P` via `Δt = phi0/(2π)·P` and the closed-form
`n* = round((ref_epoch − Δt)/P)`, and the result is within `P/2` of the
reference epoch. -/
theorem C4_pericenter_time (o : KeplerOrbit) (ref : ℝ) (hP : 0 < o.P) :
    o.t0 ref = o.phi0 / (2 * Real.pi) * o.P +
        (round ((ref - o.phi0 / (2 * Real.pi) * o.P) / o.P) : ℤ) * o.P ∧
    |o.t0 ref - ref| ≤ o.P / 2 := by
  refine ⟨rfl, ?_⟩
  have hform : o.t0 ref = o.phi0 / (2 * Real.pi) * o.P +
      (round ((ref - o.phi0 / (2 * Real.pi) * o.P) / o.P) : ℤ) * o.P := rfl
  have hxP : (ref - o.phi0 / (2 * Real.pi) * o.P) / o.P * o.P =
      ref - o.phi0 / (2 * Real.pi) * o.P := div_mul_cancel₀ _ hP.ne'
  have h1 : o.t0 ref - ref =
      (((round ((ref - o.phi0 / (2 * Real.pi) * o.P) / o.P) : ℤ) : ℝ) -
        (ref - o.phi0 / (2 * Real.pi) * o.P) / o.P) * o.P := by
    rw [hform]
    linear_combination hxP
  rw [h1, abs_mul, abs_of_pos hP]
  have h3 : |(((round ((ref - o.phi0 / (2 * Real.pi) * o.P) / o.P) : ℤ) : ℝ) -
      (ref - o.phi0 / (2 * Real.pi) * o.P) / o.P)| ≤ 1 / 2 := by
    rw [abs_sub_comm]
    exact abs_sub_round _
  nlinarith [h3, hP.le]

/-- C4 witness: the pericenter-time theorem applied to the scenario orbit at
reference epoch 3. -/
theorem C4_witness :
    orbitScenario.t0 3 = orbitScenario.phi0 / (2 * Real.pi) * orbitScenario.P +
        (round ((3 - orbitScenario.phi0 / (2 * Real.pi) * orbitScenario.P) /
          orbitScenario.P) : ℤ) * orbitScenario.P ∧
    |orbitScenario.t0 3 - 3| ≤ orbitScenario.P / 2 :=
  C4_pericenter_time orbitScenario 3
    (by rw [show orbitScenario.P = (10 : ℝ) from rfl]; norm_num)

/-- C5: elements construction fails exactly on invalid input: an unknown kind
tag is a configuration error, `ecc = 1.2` and `P = -5` are configuration
errors, and construction succeeds precisely when `P > 0`, `K ≥ 0` and
`ecc ∈ [0, 1)`. -/
theorem C5_elements_validation :
    (∀ (kind : String) (kw : ElementKwargs),
        kind.capitalize ++ "Elements" ≠ "KeplerElements" →
        dispatchElements kind kw = Except.error PyError.configurationError) ∧
    (∀ kw : ElementKwargs, kw.ecc = 12 / 10 →
        mkKeplerElements kw = Except.error PyError.configurationError) ∧
    (∀ kw : ElementKwargs, kw.P = -5 →
        mkKeplerElements kw = Except.error PyError.configurationError) ∧
    (∀ kw : ElementKwargs, (∃ e, mkKeplerElements kw = Except.ok e) ↔
        (0 < kw.P ∧ 0 ≤ kw.K ∧ 0 ≤ kw.ecc ∧ kw.ecc < 1)) := by
  refine ⟨?_, ?_, ?_, ?_⟩
  · intro kind kw h
    unfold dispatchElements
    rw [if_neg (show ¬elementsClassExists (kind.capitalize ++ "Elements") from h)]
  · intro kw h
    unfold mkKeplerElements
    rw [if_pos]
    right; right; right
    rw [h]
    norm_num
  · intro kw h
    unfold mkKeplerElements
    rw [if_pos]
    left
    rw [h]
    norm_num
  · intro kw
    constructor
    · rintro ⟨e, he⟩
      unfold mkKeplerElements at he
      by_cases hcond : kw.P ≤ 0 ∨ kw.K < 0 ∨ kw.ecc < 0 ∨ 1 ≤ kw.ecc
      · rw [if_pos hcond] at he
        simp at he
      · push_neg at hcond
        exact ⟨hcond.1, hcond.2.1, hcond.2.2.1, hcond.2.2.2⟩
    · rintro ⟨hp, hk, h0, h1⟩
      refine ⟨⟨kw.P, kw.K, kw.ecc, kw.omega, kw.phi0, kw.anomaly_tol, kw.trend⟩, ?_⟩
      unfold mkKeplerElements
      rw [if_neg]
      push_neg
      exact ⟨hp, hk, h0, h1⟩

/-- C5 witness: the validation theorem exercised on concrete inputs. -/
theorem C5_witness :
    dispatchElements "foo" kwScenario = Except.error PyError.configurationError ∧
    mkKeplerElements kwBadEcc = Except.error PyError.configurationError ∧
    mkKeplerElements kwBadP = Except.error PyError.configurationError ∧
    (∃ e, mkKeplerElements kwScenario = Except.ok e) := by
  refine ⟨C5_elements_validation.1 "foo" kwScenario (by decide),
    C5_elements_validation.2.1 kwBadEcc rfl,
    C5_elements_validation.2.2.1 kwBadP rfl,
    (C5_elements_validation.2.2.2 kwScenario).mpr ?_⟩
  refine ⟨?_, ?_, ?_, ?_⟩ <;> norm_num [kwScenario]

/-- C6: when a trend is present the facade adds it, evaluated at the same raw
times, elementwise to the periodic RV array; with no trend the periodic
signal is returned unchanged. -/
theorem C6_trend_addition (o : KeplerOrbit) (ts : List ℝ) :
    (∀ f, o.trend = some f →
        o.generate_rv_curve_raw ts =
          (o.withoutTrend.generate_rv_curve_raw ts).map
            (fun rv => List.zipWith (· + ·) rv (ts.map f))) ∧
    (o.trend = none →
        o.generate_rv_curve_raw ts = o.withoutTrend.generate_rv_curve_raw ts) := by
  have hF : rvFromElements o.withoutTrend.P o.withoutTrend.K o.withoutTrend.ecc
      o.withoutTrend.omega o.withoutTrend.phi0 o.withoutTrend.anomaly_tol =
      rvFromElements o.P o.K o.ecc o.omega o.phi0 o.anomaly_tol := rfl
  have hN : o.withoutTrend.trend = none := rfl
  constructor
  · intro f hf
    unfold KeplerOrbit.generate_rv_curve_raw
    rw [hF, hN, hf]
    cases optMap (rvFromElements o.P o.K o.ecc o.omega o.phi0 o.anomaly_tol) ts with
    | none => rfl
    | some rv => rfl
  · intro hf
    unfold KeplerOrbit.generate_rv_curve_raw
    rw [hF, hN, hf]

/-- C6 witness: the trend theorem exercised on an orbit with a linear trend
and on the trendless scenario orbit. -/
theorem C6_witness :
    orbitWithTrend.generate_rv_curve_raw [1, 2] =
      (orbitWithTrend.withoutTrend.generate_rv_curve_raw [1, 2]).map
        (fun rv => List.zipWith (· + ·) rv ([1, 2].map (fun t => t))) ∧
    orbitScenario.generate_rv_curve_raw [0] =
      orbitScenario.withoutTrend.generate_rv_curve_raw [0] :=
  ⟨(C6_trend_addition orbitWithTrend [1, 2]).1 (fun t => t) rfl,
   (C6_trend_addition orbitScenario [0]).2 rfl⟩

/-- C8: the derived attributes equal the closed-form expressions
`K·P·√(1−ecc²)/(2π)` and `P·K³·(1−ecc²)^(3/2)/(2π·G)`, depend only on
`(P, K, ecc)`, and invalid inputs (negative `P` or `K`, `ecc` outside
`[0, 1)`) are rejected. -/
theorem C8_derived_quantities (o : KeplerOrbit) (hP : 0 ≤ o.P) (hK : 0 ≤ o.K)
    (h0 : 0 ≤ o.ecc) (h1 : o.ecc < 1) :
    o.a1_sini = Except.ok (o.K * o.P * Real.sqrt (1 - o.ecc ^ 2) / (2 * Real.pi)) ∧
    o.mf = Except.ok (o.P * o.K ^ 3 * Real.sqrt (1 - o.ecc ^ 2) ^ 3 /
        (2 * Real.pi * transforms.Gconst)) ∧
    (∀ o' : KeplerOrbit, o'.P = o.P → o'.K = o.K → o'.ecc = o.ecc →
        o'.a1_sini = o.a1_sini ∧ o'.mf = o.mf) ∧
    (∀ p k e : ℝ, p < 0 ∨ k < 0 ∨ e < 0 ∨ 1 ≤ e →
        transforms.a1_sini p k e = Except.error PyError.configurationError ∧
        transforms.mf p k e = Except.error PyError.configurationError) := by
  have hcond : ¬(o.P < 0 ∨ o.K < 0 ∨ o.ecc < 0 ∨ 1 ≤ o.ecc) := by
    push_neg
    exact ⟨hP, hK, h0, h1⟩
  refine ⟨?_, ?_, ?_, ?_⟩
  · unfold KeplerOrbit.a1_sini transforms.a1_sini
    rw [if_neg hcond]
  · unfold KeplerOrbit.mf transforms.mf
    rw [if_neg hcond]
  · intro o' hp hk he
    unfold KeplerOrbit.a1_sini KeplerOrbit.mf
    rw [hp, hk, he]
    exact ⟨rfl, rfl⟩
  · intro p k e h
    unfold transforms.a1_sini transforms.mf
    rw [if_pos h, if_pos h]
    exact ⟨rfl, rfl⟩

/-- C8 witness: the derived-quantities theorem applied to the scenario
orbit. -/
theorem C8_witness :
    orbitScenario.a1_sini = Except.ok (orbitScenario.K * orbitScenario.P *
        Real.sqrt (1 - orbitScenario.ecc ^ 2) / (2 * Real.pi)) ∧
    orbitScenario.mf = Except.ok (orbitScenario.P * orbitScenario.K ^ 3 *
        Real.sqrt (1 - orbitScenario.ecc ^ 2) ^ 3 /
        (2 * Real.pi * transforms.Gconst)) ∧
    (∀ o' : KeplerOrbit, o'.P = orbitScenario.P → o'.K = orbitScenario.K →
        o'.ecc = orbitScenario.ecc →
        o'.a1_sini = orbitScenario.a1_sini ∧ o'.mf = orbitScenario.mf) ∧
    (∀ p k e : ℝ, p < 0 ∨ k < 0 ∨ e < 0 ∨ 1 ≤ e →
        transforms.a1_sini p k e = Except.error PyError.configurationError ∧
        transforms.mf p k e = Except.error PyError.configurationError) := by
  have hP : orbitScenario.P = 10 := rfl
  have hK : orbitScenario.K = 5000 := rfl
  have he : orbitScenario.ecc = 0 := rfl
  exact C8_derived_quantities orbitScenario (by rw [hP]; norm_num)
    (by rw [hK]; norm_num) (by rw [he]) (by rw [he]; norm_num)

/-- C9: a non-`None` `elements` argument that is not an `OrbitalElements`
instance makes the constructor raise a `TypeError`; no orbit is produced and
the keyword arguments are ignored. -/
theorem C9_type_error :
    (∀ (kind : String) (kw : ElementKwargs),
        KeplerOrbit.init (some ElementsArg.other) kind kw =
          Except.error PyError.typeError) ∧
    (∀ (kind kind2 : String) (kw kw2 : ElementKwargs),
        KeplerOrbit.init (some ElementsArg.other) kind kw =
          KeplerOrbit.init (some ElementsArg.other) kind2 kw2) :=
  ⟨fun _ _ => rfl, fun _ _ _ _ => rfl⟩

/-- C10: calling the orbit delegates to `generate_rv_curve`, which is the raw
m/s curve converted to km/s. -/
theorem C10_call_equiv (o : KeplerOrbit) (ts : List ℝ) :
    o.call ts = o.generate_rv_curve ts ∧
    o.generate_rv_curve ts =
      (o.generate_rv_curve_raw ts).map (List.map (fun v => v / 1000)) :=
  ⟨rfl, rfl⟩

/-- C7 counterexample: the half-angle `atan2` conversion is NOT antisymmetric
at `E = 2π` (for `ecc = 0`): both `true_anomaly(2π, 0)` and
`true_anomaly(−2π, 0)` evaluate on the `atan2` branch cut to `2π`, so
`true_anomaly(−2π, 0) ≠ −true_anomaly(2π, 0)`. -/
theorem C7_counterexample :
    trueAnomaly (-(2 * Real.pi)) 0 ≠ -trueAnomaly (2 * Real.pi) 0 := by
  have hz : nuZ (2 * Real.pi) 0 = -1 := by
    apply Complex.ext
    · rw [nuZ_re, show (2 * Real.pi) / 2 = Real.pi by ring, Real.cos_pi]
      norm_num
    · rw [nuZ_im, show (2 * Real.pi) / 2 = Real.pi by ring, Real.sin_pi]
      norm_num
  have hz' : nuZ (-(2 * Real.pi)) 0 = -1 := by
    apply Complex.ext
    · rw [nuZ_re, show -(2 * Real.pi) / 2 = -Real.pi by ring, Real.cos_neg,
        Real.cos_pi]
      norm_num
    · rw [nuZ_im, show -(2 * Real.pi) / 2 = -Real.pi by ring, Real.sin_neg,
        Real.sin_pi]
      norm_num
  unfold trueAnomaly
  rw [hz, hz', Complex.arg_neg_one]
  intro h
  have hpi := Real.pi_pos
  linarith

/-- C7 (amended): away from the branch cut (excluding the eccentric anomalies
with `sin(E/2) = 0` and `cos(E/2) < 0`, i.e. the odd multiples of `2π`), the
true-anomaly conversion is an odd function of `E`:
`true_anomaly(−E, ecc) = −true_anomaly(E, ecc)` for `ecc ∈ [0, 1)`. -/
theorem C7_true_anomaly_antisymm (E ecc : ℝ) (h0 : 0 ≤ ecc) (h1 : ecc < 1)
    (h : ¬(Real.sin (E / 2) = 0 ∧ Real.cos (E / 2) < 0)) :
    trueAnomaly (-E) ecc = -trueAnomaly E ecc := by
  have hconj : nuZ (-E) ecc = (starRingEnd ℂ) (nuZ E ecc) := by
    apply Complex.ext
    · rw [Complex.conj_re, nuZ_re, nuZ_re, show -E / 2 = -(E / 2) by ring,
        Real.cos_neg]
    · rw [Complex.conj_im, nuZ_im, nuZ_im, show -E / 2 = -(E / 2) by ring,
        Real.sin_neg]
      ring
  have harg : Complex.arg (nuZ E ecc) ≠ Real.pi := by
    intro hpi
    rw [Complex.arg_eq_pi_iff] at hpi
    obtain ⟨hre, him⟩ := hpi
    apply h
    have hpos1 : 0 < Real.sqrt (1 + ecc) := Real.sqrt_pos.mpr (by linarith)
    have hpos2 : 0 < Real.sqrt (1 - ecc) := Real.sqrt_pos.mpr (by linarith)
    rw [nuZ_im] at him
    rw [nuZ_re] at hre
    constructor
    · rcases mul_eq_zero.mp him with h' | h'
      · exact absurd h' hpos1.ne'
      · exact h'
    · by_contra hc
      push_neg at hc
      nlinarith [mul_nonneg hpos2.le hc]
  unfold trueAnomaly
  rw [hconj, Complex.arg_conj, if_neg harg]
  ring

/-- C7 witness: antisymmetry at the concrete point `E = π/2`, `ecc = 0`. -/
theorem C7_witness :
    trueAnomaly (-(Real.pi / 2)) 0 = -trueAnomaly (Real.pi / 2) 0 := by
  apply C7_true_anomaly_antisymm (Real.pi / 2) 0 le_rfl one_pos
  rintro ⟨h1, -⟩
  rw [show Real.pi / 2 / 2 = Real.pi / 4 by ring, Real.sin_pi_div_four] at h1
  have h2 : 0 < Real.sqrt 2 := Real.sqrt_pos.mpr (by norm_num)
  linarith

/-- C1 (amended): for `ecc ∈ [0, 1)` and a tolerance `anomaly_tol ≤ 1`, any
eccentric anomaly the Kepler solver returns through its convergence
criterion satisfies `|E − ecc·sin E − M| ≤ anomaly_tol`. -/
theorem C1_kepler_residual (ecc M tol E : ℝ) (h0 : 0 ≤ ecc) (h1 : ecc < 1)
    (ht1 : tol ≤ 1) (hE : keplerSolve ecc M tol = some E) :
    |E - ecc * Real.sin E - M| ≤ tol :=
  keplerSolveAux_residual ecc M tol h0 h1 ht1 100 M E hE

/-- C1 witness: the residual theorem at `ecc = 0`, `M = 0`, `tol = 1`. -/
theorem C1_witness :
    keplerSolve 0 0 1 = some 0 ∧ |0 - (0 : ℝ) * Real.sin 0 - 0| ≤ 1 := by
  have hs : keplerSolve 0 0 1 = some 0 := keplerSolve_ecc_zero 0 1 one_pos
  exact ⟨hs, C1_kepler_residual 0 0 1 0 le_rfl one_pos le_rfl hs⟩

set_option maxHeartbeats 1600000 in
/-- C1 counterexample: with the (absurdly large but positive) tolerance
`tol = 4.1`, eccentricity `0.97` and mean anomaly `1/4`, the solver's
step-size criterion accepts the first Newton iterate even though its
Kepler-equation residual exceeds the tolerance, so the claim as stated (for
every positive supplied tolerance) is false. -/
theorem C1_counterexample :
    ¬(∀ ecc M tol E : ℝ, 0 ≤ ecc → ecc < 1 → 0 < tol →
        keplerSolve ecc M tol = some E → |E - ecc * Real.sin E - M| ≤ tol) := by
  intro hclaim
  have hq : (0 : ℝ) < 1 / 4 := by norm_num
  have hS_hi : Real.sin (1 / 4) < 1 / 4 := Real.sin_lt hq
  have hS_lo : (63 : ℝ) / 256 < Real.sin (1 / 4) := by
    have h := Real.sin_gt_sub_cube hq (by norm_num)
    have h' : (1 : ℝ) / 4 - (1 / 4) ^ 3 / 4 = 63 / 256 := by norm_num
    linarith
  have hq8 : (0 : ℝ) < 1 / 8 := by norm_num
  have hs8_hi : Real.sin (1 / 8) < 1 / 8 := Real.sin_lt hq8
  have hs8_lo : (255 : ℝ) / 2048 < Real.sin (1 / 8) := by
    have h := Real.sin_gt_sub_cube hq8 (by norm_num)
    have h' : (1 : ℝ) / 8 - (1 / 8) ^ 3 / 4 = 255 / 2048 := by norm_num
    linarith
  have hs8_pos : (0 : ℝ) < Real.sin (1 / 8) := by linarith
  have hCid : Real.cos (1 / 4) = 1 - 2 * Real.sin (1 / 8) ^ 2 := by
    have h2 := Real.cos_two_mul ((1 : ℝ) / 8)
    rw [show (2 : ℝ) * (1 / 8) = 1 / 4 by norm_num] at h2
    have hpy := Real.sin_sq_add_cos_sq ((1 : ℝ) / 8)
    linarith
  have hC_lo : (31 : ℝ) / 32 < Real.cos (1 / 4) := by
    rw [hCid]
    nlinarith [hs8_hi, hs8_pos]
  have hC_hi : Real.cos (1 / 4) < 2032127 / 2097152 := by
    rw [hCid]
    nlinarith [hs8_lo, hs8_pos]
  have hd_pos : (0 : ℝ) < 1 - 97 / 100 * Real.cos (1 / 4) := by nlinarith [hC_hi]
  set s : ℝ := 97 / 100 * Real.sin (1 / 4) / (1 - 97 / 100 * Real.cos (1 / 4))
    with hs_def
  have hs_pos : 0 < s := div_pos (by nlinarith [hS_lo]) hd_pos
  have hs_hi : s < 41 / 10 := by
    rw [hs_def, div_lt_iff₀ hd_pos]
    nlinarith [hS_hi, hC_hi]
  have hs_lo : (79 : ℝ) / 20 < s := by
    rw [hs_def, lt_div_iff₀ hd_pos]
    nlinarith [hS_lo, hC_lo]
  have hstep_val : keplerStep (97 / 100) (1 / 4) (1 / 4) = 1 / 4 + s := by
    rw [hs_def]
    unfold keplerStep
    ring
  have hsolve : keplerSolve (97 / 100) (1 / 4) (41 / 10) = some (1 / 4 + s) := by
    unfold keplerSolve
    rw [show (100 : ℕ) = 99 + 1 from rfl, keplerSolveAux_succ, hstep_val]
    have hcond : |(1 : ℝ) / 4 + s - 1 / 4| < 41 / 10 := by
      rw [show (1 : ℝ) / 4 + s - 1 / 4 = s by ring, abs_of_pos hs_pos]
      linarith
    rw [if_pos hcond]
  have hres_sin : Real.sin (1 / 4 + s) < -(1 / 2) := by
    have hpi_lo := Real.pi_gt_d6
    have hpi_hi := Real.pi_lt_d6
    have hx_lo : (21 : ℝ) / 5 < 1 / 4 + s := by linarith
    have hx_hi : (1 : ℝ) / 4 + s < 87 / 20 := by linarith
    have ht_lo : Real.pi / 6 < 1 / 4 + s - Real.pi := by linarith
    have ht_hi : 1 / 4 + s - Real.pi < Real.pi / 2 := by linarith
    have hmem1 : Real.pi / 6 ∈ Set.Icc (-(Real.pi / 2)) (Real.pi / 2) := by
      constructor
      · linarith [Real.pi_pos]
      · linarith [Real.pi_pos]
    have hmem2 : 1 / 4 + s - Real.pi ∈ Set.Icc (-(Real.pi / 2)) (Real.pi / 2) := by
      constructor
      · linarith [Real.pi_pos]
      · linarith
    have hmono := Real.strictMonoOn_sin hmem1 hmem2 ht_lo
    rw [Real.sin_pi_div_six] at hmono
    have hshift : Real.sin (1 / 4 + s) = -Real.sin (1 / 4 + s - Real.pi) := by
      rw [Real.sin_sub, Real.sin_pi, Real.cos_pi]
      ring
    rw [hshift]
    linarith
  have happ := hclaim (97 / 100) (1 / 4) (41 / 10) (1 / 4 + s) (by norm_num)
    (by norm_num) (by norm_num) hsolve
  have hself := le_abs_self (1 / 4 + s - 97 / 100 * Real.sin (1 / 4 + s) - 1 / 4)
  linarith [happ, hself, hres_sin, hs_lo]

end TwoBody
